import Mathlib

/-!
Verification of the calculator engine in `src/script.js`.

The script keeps four global state fields (`currentInput`, `previousInput`,
`operator`, `shouldResetDisplay`) and mutates them in the handlers
`appendNumber`, `appendDecimal`, `appendOperator`, `calculateResult`,
`calculateSquare`, `toggleSign`, `clearAll` and the backspace branch of
`handleKeyboardInput`.  Each handler may call `updateDisplay` several times;
we model a handler as a function `CalcState → CalcState × List String`, the
second component being the ordered list of display writes the handler makes.

JavaScript numbers are modelled as exact rationals (`Option ℚ`, with `none`
playing the role of `NaN`, which only arises from an unparseable string).
All concrete values appearing in the claims are decimal fractions far below
any magnitude where IEEE-754 doubles and exact rationals could round to
different 8-decimal-digit results, and `Number.prototype.toString` is
modelled as the exact decimal rendering of such a fraction.
-/

namespace Calculator

/-- The five operator tokens the UI can pass to `appendOperator`
(`'+' '-' '*' '/' '%'`).  The JS variable `operator` holds one of these or
the empty string; we model it as `Option Op` with `none` for `''`. -/
inductive Op
  | add
  | sub
  | mul
  | div
  | mod
deriving DecidableEq

/-- The four global state fields of `script.js` (lines 4-7). -/
structure CalcState where
  currentInput : String
  previousInput : String
  operator : Option Op
  shouldResetDisplay : Bool
deriving DecidableEq

/-- The initial state: all fields empty/none/false (lines 4-7), which is
also the state `clearAll` re-establishes. -/
def initState : CalcState := ⟨"", "", none, false⟩

/-- Characters `'0'..'9'`. -/
def isDigitChar (c : Char) : Bool := decide ('0' ≤ c) && decide (c ≤ '9')

/-- Numeric value of a digit character. -/
def digitVal (c : Char) : Nat := c.toNat - 48

/-- Value of a digit string read left to right. -/
def digitsToNat (l : List Char) : Nat := l.foldl (fun a c => 10 * a + digitVal c) 0

/-- The rational value of a parsed decimal literal: integer part `ip`,
fractional part `f` written with `k` digits, and an optional sign. -/
def decToRat (neg : Bool) (ip f k : Nat) : ℚ :=
  let q : ℚ := (ip : ℚ) + (f : ℚ) / (10 : ℚ) ^ k
  if neg then -q else q

/-- Model of JavaScript `parseFloat` on the strings the engine builds:
an optional sign, then an integer part, then optionally a dot and a
fractional part; any trailing junk is ignored (as `parseFloat` does) and a
string with no digit at all gives `none` (JS `NaN`). -/
def parseFloat (str : String) : Option ℚ :=
  let cs := str.toList
  let neg : Bool := cs.head? = some '-'
  let cs := if cs.head? = some '-' ∨ cs.head? = some '+' then cs.tail else cs
  let intPart := cs.takeWhile isDigitChar
  let rest := cs.dropWhile isDigitChar
  let fracPart := if rest.head? = some '.' then rest.tail.takeWhile isDigitChar else []
  if intPart = [] ∧ fracPart = [] then none
  else some (decToRat neg (digitsToNat intPart) (digitsToNat fracPart) fracPart.length)

/-- JavaScript `Math.round`: round half toward positive infinity. -/
def jsRound (q : ℚ) : ℤ := ⌊q + 1 / 2⌋

/-- JavaScript truncation toward zero, used by the `%` remainder. -/
def jsTrunc (q : ℚ) : ℤ := if q < 0 then ⌈q⌉ else ⌊q⌋

/-- JavaScript `%`: remainder with the sign of the dividend,
`a % b = a - b * trunc(a / b)`. -/
def jsMod (a b : ℚ) : ℚ := a - b * (jsTrunc (a / b) : ℚ)

/-- The rounding step of `calculateResult` and `calculateSquare`
(`Math.round(result * 100000000) / 100000000`, lines 165 and 187). -/
def roundTo8 (q : ℚ) : ℚ := (jsRound (q * 100000000) : ℚ) / 100000000

/-- NaN-propagating lift of a binary operation to `Option ℚ`. -/
def lift2 (f : ℚ → ℚ → ℚ) : Option ℚ → Option ℚ → Option ℚ
  | some a, some b => some (f a b)
  | _, _ => none

/-- NaN-propagating rounding. -/
def roundOpt : Option ℚ → Option ℚ
  | some q => some (roundTo8 q)
  | none => none

/-- Decimal digit characters of `n`, most significant first; `fuel`-based
so that it is structural (any `fuel > n` is enough, since `n` has at most
`n + 1` digits). -/
def natDigitsAux : Nat → Nat → List Char
  | 0, _ => []
  | fuel + 1, n =>
    if n < 10 then [Nat.digitChar n]
    else natDigitsAux fuel (n / 10) ++ [Nat.digitChar (n % 10)]

/-- Decimal digit characters of `n`, most significant first. -/
def natDigits (n : Nat) : List Char := natDigitsAux (n + 1) n

/-- The 8 fractional digits `fr` (a value `< 10 ^ 8`), zero-padded on the
left to width 8 and with trailing zeros stripped. -/
def fracDigits (fr : Nat) : List Char :=
  let ds := natDigits fr
  let padded := List.replicate (8 - ds.length) '0' ++ ds
  (padded.reverse.dropWhile (fun c => c = '0')).reverse

/-- Model of `Number.prototype.toString` on the values the engine stores:
after the 8-decimal rounding every stored value is `k / 10 ^ 8` for an
integer `k`, and JS renders such a (small) value as its exact decimal
expansion with no trailing fractional zeros, e.g. `0.3`, `-12.25`, `36`. -/
def ratToString (q : ℚ) : String :=
  let sgn := if q < 0 then "-" else ""
  let a := |q|
  let ip : Nat := (⌊a⌋).toNat
  let fr : Nat := (⌊(a - ⌊a⌋) * 100000000⌋).toNat
  if fr = 0 then sgn ++ String.mk (natDigits ip)
  else sgn ++ String.mk (natDigits ip) ++ "." ++ String.mk (fracDigits fr)

/-- `result.toString()` on the modelled number, with `none` rendered as
JS renders `NaN`. -/
def numToString : Option ℚ → String
  | some q => ratToString q
  | none => "NaN"

/-- `appendNumber(number)` (lines 44-64): on a set reset flag first clear
the entry; swallow a second leading zero; replace a lone leading zero;
otherwise append the digit; display the updated entry. -/
def appendNumber (d : Fin 10) (s : CalcState) : CalcState × List String :=
  let s := if s.shouldResetDisplay then
      { s with currentInput := "", shouldResetDisplay := false } else s
  let n : String := String.mk [Nat.digitChar d.val]
  if s.currentInput = "0" ∧ n = "0" then (s, [])
  else
    let cur := if s.currentInput = "0" ∧ n ≠ "0" then n else s.currentInput ++ n
    ({ s with currentInput := cur }, [cur])

/-- The appending tail of `appendDecimal` (lines 82-85): append `'.'` (and
display) only when the entry does not already contain one. -/
def appendDecimalTail (s : CalcState) : CalcState × List String :=
  if '.' ∈ s.currentInput.toList then (s, [])
  else
    ({ s with currentInput := s.currentInput ++ "." }, [s.currentInput ++ "."])

/-- `appendDecimal()` (lines 69-86): on a set reset flag restart from
`"0"`; an empty entry also becomes `"0"`; then append the decimal point as
above. -/
def appendDecimal (s : CalcState) : CalcState × List String :=
  let s := if s.shouldResetDisplay then
      { s with currentInput := "0", shouldResetDisplay := false } else s
  let s := if s.currentInput = "" then { s with currentInput := "0" } else s
  appendDecimalTail s

/-- `clearAll()` (lines 214-220): reset all four fields and display `"0"`. -/
def clearAll (_s : CalcState) : CalcState × List String :=
  (initState, ["0"])

/-- The success epilogue of `calculateResult` (lines 165-172): round the
result to 8 decimal digits, display its string, store it as the new entry,
clear the pending operand and operator, set the reset flag. -/
def finishResult (r : Option ℚ) : CalcState × List String :=
  let r := roundOpt r
  let str := numToString r
  (⟨str, "", none, true⟩, [str])

/-- `calculateResult()` (lines 121-173): a no-op unless previous input,
current input and operator are all present; on `/` or `%` with a second
operand equal to zero display `"Error"` and run `clearAll`; otherwise
compute, round and commit the result. -/
def calculateResult (s : CalcState) : CalcState × List String :=
  if s.previousInput = "" ∨ s.currentInput = "" ∨ s.operator = none then (s, [])
  else
    let prev := parseFloat s.previousInput
    let current := parseFloat s.currentInput
    match s.operator with
    | none => (s, [])
    | some Op.add => finishResult (lift2 (fun a b => a + b) prev current)
    | some Op.sub => finishResult (lift2 (fun a b => a - b) prev current)
    | some Op.mul => finishResult (lift2 (fun a b => a * b) prev current)
    | some Op.div =>
      if current = some 0 then
        let c := clearAll s
        (c.1, "Error" :: c.2)
      else finishResult (lift2 (fun a b => a / b) prev current)
    | some Op.mod =>
      if current = some 0 then
        let c := clearAll s
        (c.1, "Error" :: c.2)
      else finishResult (lift2 jsMod prev current)

/-- The straight-line tail of `appendOperator` (lines 98-115), applied to
the state (and display writes) left by the optional `calculateResult`
call: reuse the previous result when the entry is empty, drop the press
when there is still no entry, otherwise commit the entry as the pending
operand and display it. -/
def appendOperatorTail (op : Op) (s : CalcState) (out : List String) :
    CalcState × List String :=
  let s := if s.currentInput = "" ∧ s.previousInput ≠ "" then
      { s with currentInput := s.previousInput } else s
  if s.currentInput = "" then (s, out)
  else (⟨"", s.currentInput, some op, true⟩, out ++ [s.currentInput])

/-- `appendOperator(op)` (lines 92-116): resolve a fully specified pending
calculation first, then run the commit logic above. -/
def appendOperator (op : Op) (s : CalcState) : CalcState × List String :=
  let r := if s.currentInput ≠ "" ∧ s.previousInput ≠ "" ∧ s.operator ≠ none then
      calculateResult s else (s, [])
  appendOperatorTail op r.1 r.2

/-- `calculateSquare()` (lines 178-192): a no-op on an empty entry;
otherwise square, round like `calculateResult`, store and display the
result and set the reset flag (the pending operand and operator are left
untouched). -/
def calculateSquare (s : CalcState) : CalcState × List String :=
  if s.currentInput = "" then (s, [])
  else
    let n := parseFloat s.currentInput
    let r := roundOpt (lift2 (fun a b => a * b) n n)
    let str := numToString r
    ({ s with currentInput := str, shouldResetDisplay := true }, [str])

/-- `toggleSign()` (lines 197-209): a no-op on an empty or `"0"` entry;
otherwise strip a leading `'-'` (`currentInput.startsWith('-')` followed by
`substring(1)`) or prepend one, and display the result. -/
def toggleSign (s : CalcState) : CalcState × List String :=
  if s.currentInput = "" ∨ s.currentInput = "0" then (s, [])
  else
    let cur := if s.currentInput.toList.head? = some '-' then
        String.mk s.currentInput.toList.tail
      else "-" ++ s.currentInput
    ({ s with currentInput := cur }, [cur])

/-- The `Backspace` branch of `handleKeyboardInput` (lines 245-256): a
no-op on an empty entry; otherwise drop the last character
(`slice(0, -1)`); if what remains is empty or `"-"` display `"0"` and
clear the entry, else display the shortened entry. -/
def backspace (s : CalcState) : CalcState × List String :=
  if s.currentInput.length > 0 then
    let cur := String.mk s.currentInput.toList.dropLast
    if cur = "" ∨ cur = "-" then
      ({ s with currentInput := "" }, ["0"])
    else ({ s with currentInput := cur }, [cur])
  else (s, [])

/-- The six logical input classes of the UI adapter (buttons / keyboard),
restricted to the tokens the adapter can actually send: digits `'0'..'9'`
and the five operators. -/
inductive Input
  | digit (d : Fin 10)
  | decimal
  | operatorKey (o : Op)
  | equals
  | clear
  | back
  | squareKey
  | sign

/-- Dispatch one input to its handler. -/
def step (s : CalcState) (i : Input) : CalcState × List String :=
  match i with
  | Input.digit d => appendNumber d s
  | Input.decimal => appendDecimal s
  | Input.operatorKey o => appendOperator o s
  | Input.equals => calculateResult s
  | Input.clear => clearAll s
  | Input.back => backspace s
  | Input.squareKey => calculateSquare s
  | Input.sign => toggleSign s

/-- Run a sequence of inputs from a state, discarding display output. -/
def run (s : CalcState) (l : List Input) : CalcState :=
  l.foldl (fun s i => (step s i).1) s

/-- Number of decimal points in a string. -/
def dotCount (s : String) : Nat := s.toList.count '.'

/-- A character list starts with two minus signs. -/
def twoNeg (l : List Char) : Prop := l.take 2 = ['-', '-']

instance (l : List Char) : Decidable (twoNeg l) := by
  unfold twoNeg
  infer_instance

/-- The Entry invariant of the spec's data model: at most one `.` and
never more than one leading `-`. -/
def entryOk (s : String) : Prop := dotCount s ≤ 1 ∧ ¬ twoNeg s.toList

/-- Both string fields satisfy the Entry invariant (the previous input is
always a saved entry, so the invariant is maintained for it as well). -/
def stateOk (s : CalcState) : Prop :=
  entryOk s.currentInput ∧ entryOk s.previousInput

/-- The PendingOperator invariant of the spec's data model: an operator is
recorded only while a pending operand is present. -/
def opInv (s : CalcState) : Prop := s.operator ≠ none → s.previousInput ≠ ""

/-! ### Evaluation helpers for concrete rationals -/

theorem floor_eval (q : ℚ) (n : ℤ) (d : ℕ) (z : ℤ) (h1 : q = (n : ℚ) / (d : ℚ))
    (h2 : n / (d : ℤ) = z) : ⌊q⌋ = z := by
  subst h1
  rw [Rat.floor_intCast_div_natCast]
  exact h2

theorem ratToString_eval (q : ℚ) (i f : ℕ) (h0 : 0 ≤ q) (hi : ⌊q⌋ = (i : ℤ))
    (hf : ⌊(q - (i : ℚ)) * 100000000⌋ = (f : ℤ)) :
    ratToString q =
      (if f = 0 then String.mk (natDigits i)
       else String.mk (natDigits i) ++ "." ++ String.mk (fracDigits f)) := by
  unfold ratToString
  dsimp only
  rw [abs_of_nonneg h0, if_neg (not_lt.2 h0), hi]
  push_cast
  rw [hf]
  simp [Int.toNat_natCast]

theorem parseFloat_zero : parseFloat "0" = some 0 := by
  rw [show parseFloat "0" = some (decToRat false 0 0 0) from rfl]
  norm_num [decToRat]

/-! ### Shared facts about `calculateResult` -/

theorem calculateResult_noop (s : CalcState)
    (h : s.previousInput = "" ∨ s.currentInput = "" ∨ s.operator = none) :
    calculateResult s = (s, []) := by
  unfold calculateResult
  rw [if_pos h]

theorem calculateResult_zero_divisor (s : CalcState)
    (h1 : s.previousInput ≠ "") (h2 : s.currentInput ≠ "")
    (h3 : s.operator = some Op.div ∨ s.operator = some Op.mod)
    (h4 : parseFloat s.currentInput = some 0) :
    calculateResult s = (⟨"", "", none, false⟩, ["Error", "0"]) := by
  unfold calculateResult
  rcases h3 with h3 | h3 <;>
    rw [if_neg (by simp [h1, h2, h3])] <;>
    rw [h3] <;>
    simp [h4, clearAll, initState]

/-! ### Claim theorems -/

/-- C1: with a pending operand, an entry and a pending `/` or `%` whose
second operand parses to exactly zero, `evaluate()` emits the fixed token
`"Error"` and resets all four state fields to their initial values (Entry
empty, PendingOperand empty, PendingOperator none, ResetFlag false),
computing no result (the `"0"` that follows is the display write of the
`clearAll` call it makes). -/
theorem evaluate_zero_divisor_resets (s : CalcState)
    (h1 : s.previousInput ≠ "") (h2 : s.currentInput ≠ "")
    (h3 : s.operator = some Op.div ∨ s.operator = some Op.mod)
    (h4 : parseFloat s.currentInput = some 0) :
    calculateResult s =
      ({ currentInput := "", previousInput := "", operator := none,
         shouldResetDisplay := false }, ["Error", "0"]) :=
  calculateResult_zero_divisor s h1 h2 h3 h4

/-- Witness for C1: Entry `"0"`, pending operand `"5"`, pending `/`. -/
theorem evaluate_zero_divisor_resets_witness :
    calculateResult ⟨"0", "5", some Op.div, false⟩ =
      (⟨"", "", none, false⟩, ["Error", "0"]) :=
  evaluate_zero_divisor_resets ⟨"0", "5", some Op.div, false⟩
    (by decide) (by decide) (Or.inl rfl) parseFloat_zero

/-- C9: on a division or modulo by zero, the display writes made during
`evaluate()` are exactly `"Error"` followed by the `"0"` written by the
`clearAll` it invokes, so the last value written is `"0"`, not `"Error"`. -/
theorem zero_divisor_last_display (s : CalcState)
    (h1 : s.previousInput ≠ "") (h2 : s.currentInput ≠ "")
    (h3 : s.operator = some Op.div ∨ s.operator = some Op.mod)
    (h4 : parseFloat s.currentInput = some 0) :
    (calculateResult s).2 = ["Error", "0"] ∧
    (calculateResult s).2.getLast? = some "0" ∧
    (calculateResult s).2.getLast? ≠ some "Error" := by
  rw [calculateResult_zero_divisor s h1 h2 h3 h4]
  refine ⟨rfl, rfl, by decide⟩

/-- Witness for C9: Entry `"0"`, pending operand `"7"`, pending `%`. -/
theorem zero_divisor_last_display_witness :
    (calculateResult ⟨"0", "7", some Op.mod, false⟩).2 = ["Error", "0"] ∧
    (calculateResult ⟨"0", "7", some Op.mod, false⟩).2.getLast? = some "0" ∧
    (calculateResult ⟨"0", "7", some Op.mod, false⟩).2.getLast? ≠ some "Error" :=
  zero_divisor_last_display ⟨"0", "7", some Op.mod, false⟩
    (by decide) (by decide) (Or.inr rfl) parseFloat_zero

/-- C2 counterexample: from Entry `"5"` with nothing in flight,
`chooseOperator('+')` then `evaluate()` does not reuse the pending operand
as Entry and returns nothing: `evaluate()` early-returns because Entry is
empty, so Entry stays `""` (not `"5"`) and no display value is emitted. -/
theorem roundtrip_reuse_counterexample :
    (appendOperator Op.add ⟨"5", "", none, false⟩).1 = ⟨"", "5", some Op.add, true⟩ ∧
    calculateResult ⟨"", "5", some Op.add, true⟩ = (⟨"", "5", some Op.add, true⟩, []) ∧
    (calculateResult ⟨"", "5", some Op.add, true⟩).1.currentInput ≠ "5" ∧
    (calculateResult ⟨"", "5", some Op.add, true⟩).2 = [] := by
  decide

/-- C2 amended: from a state with a non-empty Entry and no operation in
flight, `chooseOperator('+')` stores Entry as PendingOperand (emitting it)
and clears Entry, and the immediately following `evaluate()` with no
second operand entered is a no-op: it changes nothing and emits nothing
(the pending operand is reused as Entry only by a later operator press,
not by `evaluate()`). -/
theorem roundtrip_evaluate_noop (s : CalcState) (h1 : s.currentInput ≠ "")
    (h2 : s.previousInput = "") (h3 : s.operator = none) :
    appendOperator Op.add s =
      (⟨"", s.currentInput, some Op.add, true⟩, [s.currentInput]) ∧
    calculateResult (⟨"", s.currentInput, some Op.add, true⟩ : CalcState) =
      ((⟨"", s.currentInput, some Op.add, true⟩ : CalcState), []) := by
  constructor
  · unfold appendOperator appendOperatorTail
    simp [h1, h2, h3]
  · exact calculateResult_noop _ (Or.inr (Or.inl rfl))

/-- Witness for C2's amended claim at Entry `"5"`. -/
theorem roundtrip_evaluate_noop_witness :
    appendOperator Op.add ⟨"5", "", none, false⟩ =
      (⟨"", "5", some Op.add, true⟩, ["5"]) ∧
    calculateResult ⟨"", "5", some Op.add, true⟩ =
      (⟨"", "5", some Op.add, true⟩, []) :=
  roundtrip_evaluate_noop ⟨"5", "", none, false⟩ (by decide) rfl rfl

/-- C7 counterexample: in the reachable state left by typing `5` and
pressing `+`, one call to `evaluate()` completes (as a guarded no-op) with
PendingOperator still `'+'`, not none — so the claim's stated reason
fails — although the repeated call is still a no-op. -/
theorem evaluate_idempotent_counterexample :
    (calculateResult (run initState [Input.digit 5, Input.operatorKey Op.add])).1.operator
        = some Op.add ∧
    (calculateResult (run initState [Input.digit 5, Input.operatorKey Op.add])).1.operator
        ≠ none := by
  decide

/-- C7 amended: `evaluate()` is idempotent with no intervening input: for
every state, an immediately repeated call is a no-op that changes no state
field and emits nothing — because after a completed computation (or an
error reset) PendingOperator is none, while after a guarded no-op the same
guard fails again (though PendingOperator may then still be non-none). -/
theorem evaluate_idempotent (s : CalcState) :
    calculateResult (calculateResult s).1 = ((calculateResult s).1, []) := by
  by_cases hg : s.previousInput = "" ∨ s.currentInput = "" ∨ s.operator = none
  · rw [calculateResult_noop s hg]
    exact calculateResult_noop s hg
  · push_neg at hg
    obtain ⟨hp, hc, ho⟩ := hg
    obtain ⟨o, ho'⟩ := Option.ne_none_iff_exists'.mp ho
    have key : (calculateResult s).1.previousInput = "" := by
      unfold calculateResult
      rw [if_neg (by simp [hp, hc, ho'])]
      cases o <;> simp only [ho'] <;> first
        | rfl
        | (split <;> rfl)
    exact calculateResult_noop _ (Or.inl key)

/-! ### Backspace claims -/

theorem string_length_pos (s : String) (h : s ≠ "") : s.length > 0 := by
  cases s with
  | mk data =>
    cases data with
    | nil => exact absurd rfl h
    | cons c t => simp [String.length]

theorem appendNumber_after_reset (d : Fin 10) (t : CalcState)
    (ht : t.shouldResetDisplay = true) :
    appendNumber d t =
      ({ t with currentInput := String.mk [Nat.digitChar d.val],
                shouldResetDisplay := false }, [String.mk [Nat.digitChar d.val]]) := by
  unfold appendNumber
  rw [if_pos ht]
  dsimp only
  rw [if_neg (fun h => absurd h.1 (by decide))]
  rw [if_neg (fun h => absurd h.1 (by decide))]
  rfl

theorem backspace_of_empty (s : CalcState) (h : s.currentInput = "") :
    backspace s = (s, []) := by
  unfold backspace
  rw [if_neg (by simp [h, String.length])]

theorem backspace_of_short (s : CalcState) (h : s.currentInput ≠ "")
    (h2 : String.mk s.currentInput.toList.dropLast = "" ∨
      String.mk s.currentInput.toList.dropLast = "-") :
    backspace s = ({ s with currentInput := "" }, ["0"]) := by
  unfold backspace
  rw [if_pos (string_length_pos _ h)]
  dsimp only
  rw [if_pos h2]

theorem backspace_of_long (s : CalcState) (h : s.currentInput ≠ "")
    (h2 : ¬(String.mk s.currentInput.toList.dropLast = "" ∨
      String.mk s.currentInput.toList.dropLast = "-")) :
    backspace s =
      ({ s with currentInput := String.mk s.currentInput.toList.dropLast },
       [String.mk s.currentInput.toList.dropLast]) := by
  unfold backspace
  rw [if_pos (string_length_pos _ h)]
  dsimp only
  rw [if_neg h2]

/-- C8: `backspace()` is a no-op on an empty Entry; otherwise it removes
the last character; when the shortened string is empty or exactly `"-"` it
emits `"0"` and resets Entry to empty, else it emits the shortened Entry. -/
theorem backspace_spec (s : CalcState) :
    (s.currentInput = "" → backspace s = (s, [])) ∧
    (s.currentInput ≠ "" →
      (String.mk s.currentInput.toList.dropLast = "" ∨
          String.mk s.currentInput.toList.dropLast = "-") →
      backspace s = ({ s with currentInput := "" }, ["0"])) ∧
    (s.currentInput ≠ "" →
      ¬(String.mk s.currentInput.toList.dropLast = "" ∨
          String.mk s.currentInput.toList.dropLast = "-") →
      backspace s =
        ({ s with currentInput := String.mk s.currentInput.toList.dropLast },
         [String.mk s.currentInput.toList.dropLast])) :=
  ⟨backspace_of_empty s, backspace_of_short s, backspace_of_long s⟩

/-- Witness for C8: backspace turns Entry `"12"` into `"1"` (displaying
`"1"`), Entry `"1"` into `""` (displaying `"0"`), and is a no-op on an
empty Entry. -/
theorem backspace_spec_witness :
    backspace ⟨"12", "", none, false⟩ = (⟨"1", "", none, false⟩, ["1"]) ∧
    backspace ⟨"1", "", none, false⟩ = (⟨"", "", none, false⟩, ["0"]) ∧
    backspace ⟨"", "", none, false⟩ = (⟨"", "", none, false⟩, []) := by
  refine ⟨?_, ?_, ?_⟩
  · exact ((backspace_spec ⟨"12", "", none, false⟩).2.2 (by decide)
      (by decide)).trans (by decide)
  · exact ((backspace_spec ⟨"1", "", none, false⟩).2.1 (by decide)
      (by decide)).trans (by decide)
  · exact (backspace_spec ⟨"", "", none, false⟩).1 rfl

/-- C10: the backspace handler neither consults nor clears ResetFlag: its
result is independent of the flag and leaves it unchanged; on a non-empty
Entry it only shortens (or empties) the Entry; hence when ResetFlag is set
(as just after `evaluate()`), a digit entered after a backspace discards
the shortened Entry and starts a fresh number. -/
theorem backspace_ignores_reset_flag (s : CalcState) (d : Fin 10) (b : Bool) :
    backspace { s with shouldResetDisplay := b } =
      ({ (backspace s).1 with shouldResetDisplay := b }, (backspace s).2) ∧
    (backspace s).1.shouldResetDisplay = s.shouldResetDisplay ∧
    (s.currentInput ≠ "" →
      (backspace s).1.currentInput = String.mk s.currentInput.toList.dropLast ∨
      (backspace s).1.currentInput = "") ∧
    (s.shouldResetDisplay = true →
      (appendNumber d (backspace s).1).1.currentInput = String.mk [Nat.digitChar d.val] ∧
      (appendNumber d (backspace s).1).1.shouldResetDisplay = false) := by
  have flagIrrelevant : backspace { s with shouldResetDisplay := b } =
      ({ (backspace s).1 with shouldResetDisplay := b }, (backspace s).2) := by
    by_cases h1 : s.currentInput = ""
    · rw [backspace_of_empty s h1,
        backspace_of_empty { s with shouldResetDisplay := b } h1]
    · by_cases h2 : String.mk s.currentInput.toList.dropLast = "" ∨
          String.mk s.currentInput.toList.dropLast = "-"
      · rw [backspace_of_short s h1 h2,
          backspace_of_short { s with shouldResetDisplay := b } h1 h2]
      · rw [backspace_of_long s h1 h2,
          backspace_of_long { s with shouldResetDisplay := b } h1 h2]
  have hflag : (backspace s).1.shouldResetDisplay = s.shouldResetDisplay := by
    by_cases h1 : s.currentInput = ""
    · rw [backspace_of_empty s h1]
    · by_cases h2 : String.mk s.currentInput.toList.dropLast = "" ∨
          String.mk s.currentInput.toList.dropLast = "-"
      · rw [backspace_of_short s h1 h2]
      · rw [backspace_of_long s h1 h2]
  refine ⟨flagIrrelevant, hflag, fun h1 => ?_, fun hset => ?_⟩
  · by_cases h2 : String.mk s.currentInput.toList.dropLast = "" ∨
        String.mk s.currentInput.toList.dropLast = "-"
    · right
      rw [backspace_of_short s h1 h2]
    · left
      rw [backspace_of_long s h1 h2]
  · have hset2 : (backspace s).1.shouldResetDisplay = true := hflag.trans hset
    rw [appendNumber_after_reset d _ hset2]
    exact ⟨rfl, rfl⟩

/-! ### Digit entry and rounding claims -/

theorem digitString_eq_zero (d : Fin 10)
    (h : String.mk [Nat.digitChar d.val] = "0") : d = 0 := by
  revert h
  revert d
  decide

theorem appendNumber_reset (d : Fin 10) (s : CalcState)
    (h : s.shouldResetDisplay = true) :
    appendNumber d s =
      appendNumber d { s with currentInput := "", shouldResetDisplay := false } := by
  rw [appendNumber_after_reset d s h]
  unfold appendNumber
  rw [if_neg (show ¬(({ s with currentInput := "", shouldResetDisplay := false } : CalcState).shouldResetDisplay = true) from by simp)]
  dsimp only
  rw [if_neg (show ¬(("" : String) = "0" ∧
      (String.mk [Nat.digitChar d.val] : String) = "0")
    from fun hx => absurd hx.1 (by decide))]
  rw [if_neg (show ¬(("" : String) = "0" ∧
      (String.mk [Nat.digitChar d.val] : String) ≠ "0")
    from fun hx => absurd hx.1 (by decide))]
  rfl

theorem appendNumber_noop (d : Fin 10) (s : CalcState)
    (h : s.shouldResetDisplay = false) (hc : s.currentInput = "0") (hd : d = 0) :
    appendNumber d s = (s, []) := by
  unfold appendNumber
  rw [if_neg (show ¬(s.shouldResetDisplay = true) from by simp [h])]
  dsimp only
  rw [if_pos (show s.currentInput = "0" ∧
      (String.mk [Nat.digitChar d.val] : String) = "0"
    from ⟨hc, by subst hd; decide⟩)]

theorem appendNumber_replace (d : Fin 10) (s : CalcState)
    (h : s.shouldResetDisplay = false) (hc : s.currentInput = "0") (hd : d ≠ 0) :
    appendNumber d s =
      ({ s with currentInput := String.mk [Nat.digitChar d.val] },
       [String.mk [Nat.digitChar d.val]]) := by
  unfold appendNumber
  rw [if_neg (show ¬(s.shouldResetDisplay = true) from by simp [h])]
  dsimp only
  rw [if_neg (show ¬(s.currentInput = "0" ∧
      (String.mk [Nat.digitChar d.val] : String) = "0")
    from fun hx => hd (digitString_eq_zero d hx.2))]
  rw [if_pos (show s.currentInput = "0" ∧
      (String.mk [Nat.digitChar d.val] : String) ≠ "0"
    from ⟨hc, fun hx => hd (digitString_eq_zero d hx)⟩)]

theorem appendNumber_append (d : Fin 10) (s : CalcState)
    (h : s.shouldResetDisplay = false) (hc : s.currentInput ≠ "0") :
    appendNumber d s =
      ({ s with currentInput := s.currentInput ++ String.mk [Nat.digitChar d.val] },
       [s.currentInput ++ String.mk [Nat.digitChar d.val]]) := by
  unfold appendNumber
  rw [if_neg (show ¬(s.shouldResetDisplay = true) from by simp [h])]
  dsimp only
  rw [if_neg (show ¬(s.currentInput = "0" ∧
      (String.mk [Nat.digitChar d.val] : String) = "0")
    from fun hx => hc hx.1)]
  rw [if_neg (show ¬(s.currentInput = "0" ∧
      (String.mk [Nat.digitChar d.val] : String) ≠ "0")
    from fun hx => hc hx.1)]

/-- C4: for every digit `d`, `enterDigit(d)` first clears Entry and unsets
ResetFlag when ResetFlag is set; then with Entry `"0"` a second `"0"` is a
no-op, a non-zero digit replaces the `"0"`, and otherwise the digit is
appended, with the updated Entry emitted; consequently the digit sequence
`0`, `0`, `5` from the initial state yields Entry `"5"`. -/
theorem enterDigit_spec (s : CalcState) (d : Fin 10) :
    (s.shouldResetDisplay = true →
      appendNumber d s =
        appendNumber d { s with currentInput := "", shouldResetDisplay := false }) ∧
    (s.shouldResetDisplay = false → s.currentInput = "0" → d = 0 →
      appendNumber d s = (s, [])) ∧
    (s.shouldResetDisplay = false → s.currentInput = "0" → d ≠ 0 →
      appendNumber d s =
        ({ s with currentInput := String.mk [Nat.digitChar d.val] },
         [String.mk [Nat.digitChar d.val]])) ∧
    (s.shouldResetDisplay = false → s.currentInput ≠ "0" →
      appendNumber d s =
        ({ s with currentInput := s.currentInput ++ String.mk [Nat.digitChar d.val] },
         [s.currentInput ++ String.mk [Nat.digitChar d.val]])) ∧
    run initState [Input.digit 0, Input.digit 0, Input.digit 5] =
      ⟨"5", "", none, false⟩ := by
  exact ⟨appendNumber_reset d s, appendNumber_noop d s, appendNumber_replace d s,
    appendNumber_append d s, by decide⟩

/-- Witness for C4: a second leading zero is swallowed, a non-zero digit
replaces a lone `"0"`, digits append otherwise, and `0`,`0`,`5` typed from
the initial state leaves Entry `"5"`. -/
theorem enterDigit_spec_witness :
    appendNumber 0 ⟨"0", "", none, false⟩ = (⟨"0", "", none, false⟩, []) ∧
    appendNumber 5 ⟨"0", "", none, false⟩ = (⟨"5", "", none, false⟩, ["5"]) ∧
    appendNumber 7 ⟨"5", "", none, false⟩ = (⟨"57", "", none, false⟩, ["57"]) := by
  refine ⟨?_, ?_, ?_⟩
  · exact (enterDigit_spec ⟨"0", "", none, false⟩ 0).2.1 rfl rfl rfl
  · exact ((enterDigit_spec ⟨"0", "", none, false⟩ 5).2.2.1 rfl rfl
      (by decide)).trans (by decide)
  · exact ((enterDigit_spec ⟨"5", "", none, false⟩ 7).2.2.2.1 rfl
      (by decide)).trans (by decide)

/-- C3: when `evaluate()` computes an addition, it rounds the exact result
through `Math.round(result * 10^8) / 10^8` and stringifies that rounded
value into Entry (clearing the pending fields and setting ResetFlag). -/
theorem evaluate_rounds_to_8_decimals (s : CalcState) (p c : ℚ)
    (h1 : s.previousInput ≠ "") (h2 : s.currentInput ≠ "")
    (hop : s.operator = some Op.add)
    (hp : parseFloat s.previousInput = some p)
    (hc : parseFloat s.currentInput = some c) :
    calculateResult s =
      (⟨ratToString ((⌊(p + c) * 100000000 + 1 / 2⌋ : ℚ) / 100000000),
        "", none, true⟩,
       [ratToString ((⌊(p + c) * 100000000 + 1 / 2⌋ : ℚ) / 100000000)]) := by
  unfold calculateResult
  rw [if_neg (by simp [h1, h2, hop])]
  rw [hop]
  simp [hp, hc, finishResult, roundOpt, lift2, roundTo8, jsRound, numToString]

/-- Witness for C3: operands `"0.1"` and `"0.2"` under `+` produce the
result string `"0.3"` (not `"0.30000000000000004"`). -/
theorem evaluate_rounds_to_8_decimals_witness :
    calculateResult ⟨"0.2", "0.1", some Op.add, false⟩ =
      (⟨"0.3", "", none, true⟩, ["0.3"]) := by
  have hp : parseFloat "0.1" = some (1 / 10 : ℚ) := by
    rw [show parseFloat "0.1" = some (decToRat false 0 1 1) from rfl]
    norm_num [decToRat]
  have hc : parseFloat "0.2" = some (2 / 10 : ℚ) := by
    rw [show parseFloat "0.2" = some (decToRat false 0 2 1) from rfl]
    norm_num [decToRat]
  have h := evaluate_rounds_to_8_decimals ⟨"0.2", "0.1", some Op.add, false⟩
    (1 / 10) (2 / 10) (by decide) (by decide) rfl hp hc
  rw [h]
  have hfl : ⌊((1 : ℚ) / 10 + 2 / 10) * 100000000 + 1 / 2⌋ = (30000000 : ℤ) :=
    floor_eval _ 60000001 2 _ (by norm_num) (by decide)
  rw [hfl]
  have hs : ratToString (((30000000 : ℤ) : ℚ) / 100000000) = "0.3" := by
    rw [ratToString_eval _ 0 30000000 (by norm_num)
      (floor_eval _ 3 10 _ (by push_cast; norm_num) (by decide))
      (floor_eval _ 30000000 1 _ (by push_cast; norm_num) (by decide))]
    decide
  rw [hs]

/-! ### Entry well-formedness: character-level lemmas -/

instance (s : String) : Decidable (entryOk s) := by
  unfold entryOk dotCount
  infer_instance

instance (s : CalcState) : Decidable (stateOk s) := by
  unfold stateOk
  infer_instance

instance (s : CalcState) : Decidable (opInv s) := by
  unfold opInv
  infer_instance

theorem toList_mk (l : List Char) : (String.mk l).toList = l := rfl

theorem toList_append (a b : String) : (a ++ b).toList = a.toList ++ b.toList := rfl

theorem isDigit_ne_dot (c : Char) (h : c.isDigit = true) : c ≠ '.' := by
  rintro rfl
  exact absurd h (by decide)

theorem isDigit_ne_dash (c : Char) (h : c.isDigit = true) : c ≠ '-' := by
  rintro rfl
  exact absurd h (by decide)

theorem digitChar_isDigit : ∀ k, k < 10 → (Nat.digitChar k).isDigit = true := by
  decide

theorem mem_natDigitsAux_isDigit (fuel : Nat) :
    ∀ (n : Nat) (c : Char), c ∈ natDigitsAux fuel n → c.isDigit = true := by
  induction fuel with
  | zero =>
    intro n c h
    exact absurd h (List.not_mem_nil c)
  | succ f ih =>
    intro n c h
    unfold natDigitsAux at h
    by_cases h10 : n < 10
    · rw [if_pos h10] at h
      rw [List.mem_singleton] at h
      subst h
      exact digitChar_isDigit n h10
    · rw [if_neg h10] at h
      rcases List.mem_append.mp h with h | h
      · exact ih _ c h
      · rw [List.mem_singleton] at h
        subst h
        exact digitChar_isDigit _ (Nat.mod_lt _ (by norm_num))

theorem natDigits_isDigit (n : Nat) : ∀ c ∈ natDigits n, c.isDigit = true :=
  fun c h => mem_natDigitsAux_isDigit _ _ c h

theorem natDigits_ne_nil (n : Nat) : natDigits n ≠ [] := by
  unfold natDigits natDigitsAux
  by_cases h : n < 10
  · rw [if_pos h]
    exact List.cons_ne_nil _ _
  · rw [if_neg h]
    intro hc
    exact List.cons_ne_nil _ _ (List.append_eq_nil.mp hc).2

theorem mem_fracDigits_isDigit (f : Nat) : ∀ c ∈ fracDigits f, c.isDigit = true := by
  intro c h
  unfold fracDigits at h
  dsimp only at h
  rw [List.mem_reverse] at h
  have h2 := (List.dropWhile_sublist _).subset h
  rw [List.mem_reverse] at h2
  rcases List.mem_append.mp h2 with h3 | h3
  · rw [List.eq_of_mem_replicate h3]
    decide
  · exact mem_natDigitsAux_isDigit _ _ c h3

theorem count_dot_eq_zero (l : List Char) (h : ∀ c ∈ l, c.isDigit = true) :
    l.count '.' = 0 :=
  List.count_eq_zero.mpr (fun hm => absurd (h '.' hm) (by decide))

theorem count_dot_natDigits (m : Nat) : (natDigits m).count '.' = 0 :=
  count_dot_eq_zero _ (natDigits_isDigit m)

theorem count_dot_fracDigits (f : Nat) : (fracDigits f).count '.' = 0 :=
  count_dot_eq_zero _ (mem_fracDigits_isDigit f)

theorem not_twoNeg_cons (a : Char) (t : List Char) (h : a ≠ '-') :
    ¬ twoNeg (a :: t) := by
  intro hc
  unfold twoNeg at hc
  rw [List.take_succ_cons] at hc
  injection hc with h1 _
  exact h h1

theorem not_twoNeg_cons₂ (a : Char) (t : List Char) (h : a ≠ '-') :
    ¬ twoNeg ('-' :: a :: t) := by
  intro hc
  unfold twoNeg at hc
  rw [List.take_succ_cons, List.take_succ_cons] at hc
  injection hc with _ h2
  injection h2 with h2 _
  exact h h2

theorem not_twoNeg_tail (t : List Char) (h : ¬ twoNeg ('-' :: t)) : ¬ twoNeg t := by
  intro ht
  apply h
  rcases t with _ | ⟨a, t'⟩
  · exact absurd (show ([] : List Char) = ['-', '-'] from ht) (by decide)
  · have h' : a :: t'.take 1 = ['-', '-'] := ht
    have ha : a = '-' := by
      injection h' with h1 _
    subst ha
    rfl

theorem not_twoNeg_append (l : List Char) (c : Char) (hl : ¬ twoNeg l)
    (hc : c ≠ '-') : ¬ twoNeg (l ++ [c]) := by
  rcases l with _ | ⟨a, _ | ⟨b, t⟩⟩
  · intro h
    have h' : [c] = ['-', '-'] := h
    injection h' with _ h2
    exact List.noConfusion h2
  · intro h
    have h' : [a, c] = ['-', '-'] := h
    injection h' with h1 h2
    injection h2 with h2 _
    exact hc h2
  · intro h
    have h' : [a, b] = ['-', '-'] := h
    injection h' with h1 h2
    injection h2 with h2 _
    subst h1
    subst h2
    exact hl rfl

theorem not_twoNeg_dropLast (l : List Char) (hl : ¬ twoNeg l) :
    ¬ twoNeg l.dropLast := by
  rcases l with _ | ⟨a, _ | ⟨b, _ | ⟨e, t⟩⟩⟩
  · exact hl
  · intro h
    exact List.noConfusion (show ([] : List Char) = ['-', '-'] from h)
  · intro h
    have h' : [a] = ['-', '-'] := h
    injection h' with _ h2
    exact List.noConfusion h2
  · intro h
    have h' : [a, b] = ['-', '-'] := h
    injection h' with h1 h2
    injection h2 with h2 _
    subst h1
    subst h2
    exact hl rfl

/-! ### Entry well-formedness of rendered numbers -/

theorem entryOk_of_digits (l : List Char) (hd : ∀ c ∈ l, c.isDigit = true) :
    entryOk (String.mk l) := by
  constructor
  · unfold dotCount
    rw [toList_mk, count_dot_eq_zero l hd]
    norm_num
  · rw [toList_mk]
    rcases l with _ | ⟨a, t⟩
    · decide
    · exact not_twoNeg_cons a t (isDigit_ne_dash a (hd a (List.mem_cons_self a t)))

theorem entryOk_ratToString (q : ℚ) : entryOk (ratToString q) := by
  unfold ratToString
  dsimp only
  obtain ⟨a, t, hn⟩ : ∃ a t, natDigits (⌊|q|⌋).toNat = a :: t := by
    rcases hh : natDigits (⌊|q|⌋).toNat with _ | ⟨a, t⟩
    · exact absurd hh (natDigits_ne_nil _)
    · exact ⟨a, t, rfl⟩
  have hadig : a.isDigit = true := natDigits_isDigit _ a (hn ▸ List.mem_cons_self a t)
  by_cases hf : (⌊(|q| - (⌊|q|⌋ : ℚ)) * 100000000⌋).toNat = 0
  · rw [if_pos hf]
    by_cases hq : q < 0
    · rw [if_pos hq]
      constructor
      · show ('-' :: natDigits (⌊|q|⌋).toNat).count '.' ≤ 1
        rw [List.count_cons, count_dot_natDigits]
        decide
      · show ¬ twoNeg ('-' :: natDigits (⌊|q|⌋).toNat)
        rw [hn]
        exact not_twoNeg_cons₂ a t (isDigit_ne_dash a hadig)
    · rw [if_neg hq]
      exact entryOk_of_digits _ (natDigits_isDigit _)
  · rw [if_neg hf]
    by_cases hq : q < 0
    · rw [if_pos hq]
      constructor
      · show ('-' :: ((natDigits (⌊|q|⌋).toNat ++ ['.']) ++
            fracDigits (⌊(|q| - (⌊|q|⌋ : ℚ)) * 100000000⌋).toNat)).count '.' ≤ 1
        rw [List.count_cons, List.count_append, List.count_append,
          count_dot_natDigits, count_dot_fracDigits]
        decide
      · show ¬ twoNeg ('-' :: ((natDigits (⌊|q|⌋).toNat ++ ['.']) ++
            fracDigits (⌊(|q| - (⌊|q|⌋ : ℚ)) * 100000000⌋).toNat))
        rw [hn]
        simp only [List.cons_append, List.append_assoc]
        exact not_twoNeg_cons₂ a _ (isDigit_ne_dash a hadig)
    · rw [if_neg hq]
      constructor
      · show (((natDigits (⌊|q|⌋).toNat ++ ['.']) ++
            fracDigits (⌊(|q| - (⌊|q|⌋ : ℚ)) * 100000000⌋).toNat)).count '.' ≤ 1
        rw [List.count_append, List.count_append,
          count_dot_natDigits, count_dot_fracDigits]
        decide
      · show ¬ twoNeg (((natDigits (⌊|q|⌋).toNat ++ ['.']) ++
            fracDigits (⌊(|q| - (⌊|q|⌋ : ℚ)) * 100000000⌋).toNat))
        rw [hn]
        simp only [List.cons_append, List.append_assoc]
        exact not_twoNeg_cons a _ (isDigit_ne_dash a hadig)

theorem entryOk_numToString (r : Option ℚ) : entryOk (numToString r) := by
  cases r with
  | none => decide
  | some q => exact entryOk_ratToString q

/-! ### Preservation of the Entry invariant by every handler -/

theorem dotCount_append (a b : String) :
    dotCount (a ++ b) = dotCount a + dotCount b := by
  unfold dotCount
  rw [toList_append, List.count_append]

theorem dotCount_mk (l : List Char) : dotCount (String.mk l) = l.count '.' := rfl

theorem entryOk_digitString (d : Fin 10) :
    entryOk (String.mk [Nat.digitChar d.val]) :=
  entryOk_of_digits _ (fun c hc => by
    rw [List.mem_singleton] at hc
    subst hc
    exact digitChar_isDigit _ d.isLt)

theorem dotCount_digitString (d : Fin 10) :
    dotCount (String.mk [Nat.digitChar d.val]) = 0 := by
  rw [dotCount_mk]
  exact count_dot_eq_zero _ (fun c hcm => by
    rw [List.mem_singleton] at hcm
    subst hcm
    exact digitChar_isDigit _ d.isLt)

theorem appendNumber_stateOk (d : Fin 10) (s : CalcState) (h : stateOk s) :
    stateOk (appendNumber d s).1 := by
  have core : ∀ t : CalcState, t.shouldResetDisplay = false → stateOk t →
      stateOk (appendNumber d t).1 := by
    intro t hf ht
    by_cases hc : t.currentInput = "0"
    · by_cases hd0 : d = 0
      · rw [appendNumber_noop d t hf hc hd0]
        exact ht
      · rw [appendNumber_replace d t hf hc hd0]
        exact ⟨entryOk_digitString d, ht.2⟩
    · rw [appendNumber_append d t hf hc]
      refine ⟨⟨?_, ?_⟩, ht.2⟩
      · show dotCount (t.currentInput ++ String.mk [Nat.digitChar d.val]) ≤ 1
        rw [dotCount_append, dotCount_digitString]
        have h1 := ht.1.1
        omega
      · show ¬ twoNeg (t.currentInput ++ String.mk [Nat.digitChar d.val]).toList
        rw [toList_append, toList_mk]
        exact not_twoNeg_append _ _ ht.1.2
          (isDigit_ne_dash _ (digitChar_isDigit _ d.isLt))
  by_cases hr : s.shouldResetDisplay = true
  · rw [appendNumber_reset d s hr]
    exact core _ rfl ⟨show entryOk "" from by decide, h.2⟩
  · have hf : s.shouldResetDisplay = false := by
      revert hr
      cases s.shouldResetDisplay <;> simp
    exact core s hf h

theorem appendDecimalTail_stateOk (t : CalcState) (h : stateOk t) :
    stateOk (appendDecimalTail t).1 := by
  unfold appendDecimalTail
  by_cases hd : '.' ∈ t.currentInput.toList
  · rw [if_pos hd]
    exact h
  · rw [if_neg hd]
    refine ⟨⟨?_, ?_⟩, h.2⟩
    · show dotCount (t.currentInput ++ ".") ≤ 1
      rw [dotCount_append]
      have h0 : dotCount "." = 1 := by decide
      have h1 : dotCount t.currentInput = 0 := List.count_eq_zero.mpr hd
      omega
    · show ¬ twoNeg (t.currentInput ++ ".").toList
      rw [toList_append]
      exact not_twoNeg_append _ '.' h.1.2 (by decide)

theorem appendDecimal_stateOk (s : CalcState) (h : stateOk s) :
    stateOk (appendDecimal s).1 := by
  unfold appendDecimal
  dsimp only
  by_cases hr : s.shouldResetDisplay = true
  · rw [if_pos hr]
    rw [if_neg (show ¬(({ s with currentInput := "0", shouldResetDisplay := false } : CalcState).currentInput = "") from fun hx => absurd hx (by decide : ¬(("0" : String) = "")))]
    exact appendDecimalTail_stateOk _ ⟨show entryOk "0" from by decide, h.2⟩
  · rw [if_neg hr]
    by_cases he : s.currentInput = ""
    · rw [if_pos he]
      exact appendDecimalTail_stateOk _ ⟨show entryOk "0" from by decide, h.2⟩
    · rw [if_neg he]
      exact appendDecimalTail_stateOk _ h

theorem appendOperatorTail_stateOk (o : Op) (u : CalcState) (out : List String)
    (hu : stateOk u) : stateOk (appendOperatorTail o u out).1 := by
  unfold appendOperatorTail
  dsimp only
  by_cases h1 : u.currentInput = "" ∧ u.previousInput ≠ ""
  · rw [if_pos h1]
    rw [if_neg (show ¬(({ u with currentInput := u.previousInput } : CalcState).currentInput = "") from h1.2)]
    exact ⟨show entryOk "" from by decide, hu.2⟩
  · rw [if_neg h1]
    by_cases h2 : u.currentInput = ""
    · rw [if_pos h2]
      exact hu
    · rw [if_neg h2]
      exact ⟨show entryOk "" from by decide, hu.1⟩

theorem calculateResult_shape (s : CalcState) :
    calculateResult s = (s, []) ∨
    (calculateResult s).1 = ⟨"", "", none, false⟩ ∨
    ∃ r : Option ℚ, (calculateResult s).1 = ⟨numToString (roundOpt r), "", none, true⟩ := by
  by_cases hg : s.previousInput = "" ∨ s.currentInput = "" ∨ s.operator = none
  · exact Or.inl (calculateResult_noop s hg)
  · push_neg at hg
    obtain ⟨hp, hc, ho⟩ := hg
    obtain ⟨o, ho'⟩ := Option.ne_none_iff_exists'.mp ho
    right
    unfold calculateResult
    rw [if_neg (by simp [hp, hc, ho']), ho']
    cases o with
    | add => exact Or.inr ⟨_, rfl⟩
    | sub => exact Or.inr ⟨_, rfl⟩
    | mul => exact Or.inr ⟨_, rfl⟩
    | div =>
      dsimp only
      split
      · exact Or.inl rfl
      · exact Or.inr ⟨_, rfl⟩
    | mod =>
      dsimp only
      split
      · exact Or.inl rfl
      · exact Or.inr ⟨_, rfl⟩

theorem calculateResult_stateOk (s : CalcState) (h : stateOk s) :
    stateOk (calculateResult s).1 := by
  rcases calculateResult_shape s with hs | hs | ⟨r, hs⟩
  · rw [hs]
    exact h
  · rw [hs]
    decide
  · rw [hs]
    exact ⟨entryOk_numToString _, show entryOk "" from by decide⟩

theorem appendOperator_stateOk (o : Op) (s : CalcState) (h : stateOk s) :
    stateOk (appendOperator o s).1 := by
  unfold appendOperator
  dsimp only
  by_cases h1 : s.currentInput ≠ "" ∧ s.previousInput ≠ "" ∧ s.operator ≠ none
  · rw [if_pos h1]
    exact appendOperatorTail_stateOk o _ _ (calculateResult_stateOk s h)
  · rw [if_neg h1]
    exact appendOperatorTail_stateOk o _ _ h

theorem calculateSquare_stateOk (s : CalcState) (h : stateOk s) :
    stateOk (calculateSquare s).1 := by
  unfold calculateSquare
  by_cases hc : s.currentInput = ""
  · rw [if_pos hc]
    exact h
  · rw [if_neg hc]
    exact ⟨entryOk_numToString _, h.2⟩

theorem toggleSign_stateOk (s : CalcState) (h : stateOk s) :
    stateOk (toggleSign s).1 := by
  unfold toggleSign
  by_cases hc : s.currentInput = "" ∨ s.currentInput = "0"
  · rw [if_pos hc]
    exact h
  · rw [if_neg hc]
    dsimp only
    by_cases hh : s.currentInput.toList.head? = some '-'
    · rw [if_pos hh]
      rcases hl : s.currentInput.toList with _ | ⟨a, t⟩
      · rw [hl] at hh
        exact absurd hh (by decide)
      · rw [hl] at hh
        simp only [List.head?_cons, Option.some.injEq] at hh
        subst hh
        refine ⟨⟨?_, ?_⟩, h.2⟩
        · show dotCount (String.mk t) ≤ 1
          rw [dotCount_mk]
          have h1 : s.currentInput.toList.count '.' ≤ 1 := h.1.1
          rw [hl, List.count_cons_of_ne (by decide)] at h1
          exact h1
        · show ¬ twoNeg t
          have h1 := h.1.2
          rw [hl] at h1
          exact not_twoNeg_tail t h1
    · rw [if_neg hh]
      refine ⟨⟨?_, ?_⟩, h.2⟩
      · show dotCount ("-" ++ s.currentInput) ≤ 1
        rw [dotCount_append]
        have h0 : dotCount "-" = 0 := by decide
        have h1 := h.1.1
        omega
      · show ¬ twoNeg ('-' :: s.currentInput.toList)
        rcases hl : s.currentInput.toList with _ | ⟨a, t⟩
        · decide
        · have ha : a ≠ '-' := by
            rw [hl] at hh
            exact fun hx => hh (by rw [List.head?_cons, hx])
          exact not_twoNeg_cons₂ a t ha

theorem backspace_stateOk (s : CalcState) (h : stateOk s) :
    stateOk (backspace s).1 := by
  by_cases h1 : s.currentInput = ""
  · rw [backspace_of_empty s h1]
    exact h
  · by_cases h2 : String.mk s.currentInput.toList.dropLast = "" ∨
        String.mk s.currentInput.toList.dropLast = "-"
    · rw [backspace_of_short s h1 h2]
      exact ⟨show entryOk "" from by decide, h.2⟩
    · rw [backspace_of_long s h1 h2]
      refine ⟨⟨?_, ?_⟩, h.2⟩
      · show dotCount (String.mk s.currentInput.toList.dropLast) ≤ 1
        rw [dotCount_mk]
        have hsub := (List.dropLast_sublist s.currentInput.toList).count_le '.'
        have h1c : s.currentInput.toList.count '.' ≤ 1 := h.1.1
        omega
      · show ¬ twoNeg s.currentInput.toList.dropLast
        exact not_twoNeg_dropLast _ h.1.2

theorem step_stateOk (i : Input) (s : CalcState) (h : stateOk s) :
    stateOk (step s i).1 := by
  cases i with
  | digit d => exact appendNumber_stateOk d s h
  | decimal => exact appendDecimal_stateOk s h
  | operatorKey o => exact appendOperator_stateOk o s h
  | equals => exact calculateResult_stateOk s h
  | clear => exact (by decide : stateOk initState)
  | back => exact backspace_stateOk s h
  | squareKey => exact calculateSquare_stateOk s h
  | sign => exact toggleSign_stateOk s h

theorem run_stateOk (l : List Input) : ∀ s : CalcState, stateOk s →
    stateOk (run s l) := by
  induction l with
  | nil => exact fun s h => h
  | cons i t ih => exact fun s h => ih _ (step_stateOk i s h)

/-! ### Preservation of the PendingOperator invariant -/

theorem opInv_of_fields (t u : CalcState) (hop : t.operator = u.operator)
    (hprev : t.previousInput = u.previousInput) (h : opInv u) : opInv t :=
  fun hto => hprev ▸ (h (hop ▸ hto))

theorem appendNumber_fields (d : Fin 10) (s : CalcState) :
    (appendNumber d s).1.operator = s.operator ∧
    (appendNumber d s).1.previousInput = s.previousInput := by
  unfold appendNumber
  dsimp only
  constructor <;> (repeat' split) <;> rfl

theorem appendDecimal_fields (s : CalcState) :
    (appendDecimal s).1.operator = s.operator ∧
    (appendDecimal s).1.previousInput = s.previousInput := by
  unfold appendDecimal appendDecimalTail
  dsimp only
  constructor <;> (repeat' split) <;> rfl

theorem calculateSquare_fields (s : CalcState) :
    (calculateSquare s).1.operator = s.operator ∧
    (calculateSquare s).1.previousInput = s.previousInput := by
  unfold calculateSquare
  dsimp only
  constructor <;> (repeat' split) <;> rfl

theorem toggleSign_fields (s : CalcState) :
    (toggleSign s).1.operator = s.operator ∧
    (toggleSign s).1.previousInput = s.previousInput := by
  unfold toggleSign
  dsimp only
  constructor <;> (repeat' split) <;> rfl

theorem backspace_fields (s : CalcState) :
    (backspace s).1.operator = s.operator ∧
    (backspace s).1.previousInput = s.previousInput := by
  unfold backspace
  dsimp only
  constructor <;> (repeat' split) <;> rfl

theorem calculateResult_opInv (s : CalcState) (h : opInv s) :
    opInv (calculateResult s).1 := by
  rcases calculateResult_shape s with hs | hs | ⟨r, hs⟩
  · rw [hs]
    exact h
  · rw [hs]
    decide
  · rw [hs]
    exact fun hop => absurd rfl hop

theorem appendOperatorTail_opInv (o : Op) (u : CalcState) (out : List String)
    (hu : opInv u) : opInv (appendOperatorTail o u out).1 := by
  unfold appendOperatorTail
  dsimp only
  by_cases h1 : u.currentInput = "" ∧ u.previousInput ≠ ""
  · rw [if_pos h1]
    rw [if_neg (show ¬(({ u with currentInput := u.previousInput } : CalcState).currentInput = "") from h1.2)]
    exact fun _ => h1.2
  · rw [if_neg h1]
    by_cases h2 : u.currentInput = ""
    · rw [if_pos h2]
      exact hu
    · rw [if_neg h2]
      exact fun _ => h2

theorem appendOperator_opInv (o : Op) (s : CalcState) (h : opInv s) :
    opInv (appendOperator o s).1 := by
  unfold appendOperator
  dsimp only
  by_cases h1 : s.currentInput ≠ "" ∧ s.previousInput ≠ "" ∧ s.operator ≠ none
  · rw [if_pos h1]
    exact appendOperatorTail_opInv o _ _ (calculateResult_opInv s h)
  · rw [if_neg h1]
    exact appendOperatorTail_opInv o _ _ h

theorem step_opInv (i : Input) (s : CalcState) (h : opInv s) :
    opInv (step s i).1 := by
  cases i with
  | digit d =>
    exact opInv_of_fields _ s (appendNumber_fields d s).1 (appendNumber_fields d s).2 h
  | decimal =>
    exact opInv_of_fields _ s (appendDecimal_fields s).1 (appendDecimal_fields s).2 h
  | operatorKey o =>
    exact appendOperator_opInv o s h
  | equals =>
    exact calculateResult_opInv s h
  | clear =>
    exact (by decide : opInv initState)
  | back =>
    exact opInv_of_fields _ s (backspace_fields s).1 (backspace_fields s).2 h
  | squareKey =>
    exact opInv_of_fields _ s (calculateSquare_fields s).1 (calculateSquare_fields s).2 h
  | sign =>
    exact opInv_of_fields _ s (toggleSign_fields s).1 (toggleSign_fields s).2 h

theorem run_opInv (l : List Input) : ∀ s : CalcState, opInv s →
    opInv (run s l) := by
  induction l with
  | nil => exact fun s h => h
  | cons i t ih => exact fun s h => ih _ (step_opInv i s h)

/-! ### Invariant claims -/

/-- C5: in every state reachable from the initial state by any sequence of
the engine's operations (digits, decimal, operators, equals, square, sign
toggle, clear, backspace), the Entry string contains at most one `'.'` and
never starts with two `'-'` characters. -/
theorem entry_invariant (l : List Input) :
    dotCount (run initState l).currentInput ≤ 1 ∧
    ¬ twoNeg (run initState l).currentInput.toList :=
  (run_stateOk l initState (by decide)).1

/-- C6: in every state reachable from the initial state, PendingOperator
is non-none only while PendingOperand is non-empty, and every single
operation preserves this invariant from any state satisfying it. -/
theorem operator_requires_operand (l : List Input) (s : CalcState) (i : Input) :
    ((run initState l).operator ≠ none → (run initState l).previousInput ≠ "") ∧
    (opInv s → opInv (step s i).1) :=
  ⟨run_opInv l initState (by decide), step_opInv i s⟩

/-- Witness for C6 at the reachable state after typing `5` then `+`, and
preservation applied to a concrete state satisfying the invariant. -/
theorem operator_requires_operand_witness :
    ((run initState [Input.digit 5, Input.operatorKey Op.add]).operator ≠ none →
      (run initState [Input.digit 5, Input.operatorKey Op.add]).previousInput ≠ "") ∧
    opInv (step ⟨"", "5", some Op.add, true⟩ Input.equals).1 :=
  ⟨(operator_requires_operand [Input.digit 5, Input.operatorKey Op.add]
      initState Input.equals).1,
   (operator_requires_operand [] ⟨"", "5", some Op.add, true⟩ Input.equals).2
      (by decide)⟩

/-- Witness for C10: after an `evaluate()` that left Entry `"36"` with
ResetFlag set, backspace keeps the flag set and a following digit `5`
starts the fresh Entry `"5"` with the flag cleared. -/
theorem backspace_ignores_reset_flag_witness :
    (backspace ⟨"36", "", none, true⟩).1.shouldResetDisplay = true ∧
    (appendNumber 5 (backspace ⟨"36", "", none, true⟩).1).1.currentInput = "5" ∧
    (appendNumber 5 (backspace ⟨"36", "", none, true⟩).1).1.shouldResetDisplay = false := by
  obtain ⟨h1, h2, h3, h4⟩ := backspace_ignores_reset_flag ⟨"36", "", none, true⟩ 5 false
  obtain ⟨h5, h6⟩ := h4 rfl
  exact ⟨h2, h5.trans (by decide), h6⟩

end Calculator
